import Mathlib

/-
  Verification of the MonitorFlux MQTT-to-retention-store bridge.

  Shallow embedding of the core operations of the repository:
  - `db.rs`: the SQLite-backed retention store (`DatabaseService`), modelled as a
    pure state (`DbState`) holding the `topics` and `topic_values` tables.  The
    `DATETIME DEFAULT CURRENT_TIMESTAMP` column is modelled by a strictly
    monotonic logical clock (the spec postulates monotonic ingestion
    timestamps); with distinct timestamps, membership in the
    `ORDER BY timestamp DESC LIMIT n` selection used by the trimming DELETE is
    exactly the rank condition "fewer than n rows of the topic have a strictly
    greater timestamp", which is how the selection is embedded here.
    rusqlite driver failures (I/O, malformed rows) cannot arise in the pure
    model, so every `Result` value the embedding produces is `ok`.
  - `mqtt_service.rs`: the connection-serve loop (`MqttService::start`) as a
    step function over completed loop iterations, the per-event dispatcher
    (`handle_event`) as a routing function to an effect description, and the
    bounded-retry publisher (`publish_message`) as a fuelled loop producing an
    observable trace.
  - `progress_tracker.rs` / `service_utils.rs`: the progress tracker and the
    telemetry publishing helper, with the `f64` percentage computation modelled
    exactly at the points that matter (finite quotient vs NaN/infinity on a
    zero divisor; binary rounding of finite values is abstracted to exact
    rationals).
-/

namespace MonitorFlux

/-! ## Data model: the SQLite tables of `db.rs` -/

/-- A row of the `topics` table (`CREATE TABLE topics` in `initialize_db`).
`max_values` and `query_frequency_ms` are SQLite INTEGER columns and are read
back as `i64` by `insert_value`, hence `Int`. -/
structure TopicRow where
  id : Nat
  topic : String
  parent_topic : Option String
  max_values : Int
  query_frequency_ms : Int
deriving DecidableEq

/-- A row of the `topic_values` table: payload string plus the
`DATETIME DEFAULT CURRENT_TIMESTAMP` column, modelled by a logical clock. -/
structure ValueRow where
  id : Nat
  topic_id : Nat
  value : String
  timestamp : Nat
deriving DecidableEq

/-- The persistent state behind a `DatabaseService` connection: the two tables
the claims are about, the AUTOINCREMENT counters, and the timestamp clock. -/
structure DbState where
  topics : List TopicRow
  topic_values : List ValueRow
  nextTopicId : Nat
  nextValueId : Nat
  clock : Nat
deriving DecidableEq

/-- The freshly initialized database (`initialize_db` on an empty file):
both tables empty, AUTOINCREMENT counters starting at 1. -/
def initState : DbState := { topics := [], topic_values := [], nextTopicId := 1, nextValueId := 1, clock := 0 }

/-- Query `SELECT id, max_values FROM topics WHERE topic = ?1` (first row, the
`topic` column being UNIQUE). -/
def findTopic (s : DbState) (topic : String) : Option TopicRow :=
  s.topics.find? (fun t => decide (t.topic = topic))

/-- Operation `DatabaseService::add_or_update_topic`:
`INSERT INTO topics ... ON CONFLICT(topic) DO UPDATE SET parent_topic = excluded.parent_topic,
max_values = excluded.max_values, query_frequency_ms = excluded.query_frequency_ms`.
The Rust signature takes `max_values : usize` and `query_frequency_ms : u64`
(hence `Nat` parameters stored into the INTEGER columns); the `Result<()>` it
returns can only be an `Err` on a driver failure, which the pure model cannot
produce, so the operation is embedded as the state transformer. -/
def add_or_update_topic (s : DbState) (topic : String) (parent_topic : Option String)
    (max_values : Nat) (query_frequency_ms : Nat) : DbState :=
  match findTopic s topic with
  | some _ =>
      { s with topics := s.topics.map (fun t =>
          if t.topic = topic then
            { t with parent_topic := parent_topic, max_values := (max_values : Int),
                     query_frequency_ms := (query_frequency_ms : Int) }
          else t) }
  | none =>
      { s with
        topics := s.topics ++ [{ id := s.nextTopicId, topic := topic, parent_topic := parent_topic,
                                 max_values := (max_values : Int),
                                 query_frequency_ms := (query_frequency_ms : Int) }],
        nextTopicId := s.nextTopicId + 1 }

/-- The rows of `topic_values` belonging to a topic id. -/
def valuesFor (s : DbState) (tid : Nat) : List ValueRow :=
  s.topic_values.filter (fun r => decide (r.topic_id = tid))

/-- How many rows of `tRows` have a strictly greater timestamp than `r`. -/
def newerCount (tRows : List ValueRow) (r : ValueRow) : Nat :=
  (tRows.filter (fun q => decide (r.timestamp < q.timestamp))).length

/-- Whether the trimming DELETE of `insert_value` keeps row `r`, i.e. whether
`r.id` is in `SELECT id FROM topic_values WHERE topic_id = ?1 ORDER BY timestamp
DESC LIMIT ?2` over `tRows` (the rows of the topic).  A negative SQLite LIMIT
means no limit; otherwise, timestamps being distinct in the model, membership
in the top-`n` selection is the rank condition `newerCount tRows r < n`. -/
def keptByTrim (tRows : List ValueRow) (n : Int) (r : ValueRow) : Bool :=
  decide (n < 0) || decide (newerCount tRows r < n.toNat)

/-- The row inserted by `INSERT INTO topic_values (topic_id, value)`: fresh
AUTOINCREMENT id, the defaulted CURRENT_TIMESTAMP from the clock. -/
def newValueRow (s : DbState) (tid : Nat) (v : String) : ValueRow :=
  { id := s.nextValueId, topic_id := tid, value := v, timestamp := s.clock }

/-- Operation `DatabaseService::insert_value`: look the topic up; if absent, log an error
and return `Ok(())` with the database untouched; if present, `INSERT INTO
topic_values (topic_id, value)` (timestamp defaulted from the clock) and then
`DELETE FROM topic_values WHERE id NOT IN (SELECT id FROM topic_values WHERE
topic_id = ?1 ORDER BY timestamp DESC LIMIT ?2) AND topic_id = ?1` with `?2`
the topic's `max_values`: among the post-insert rows, a row of this topic
survives iff it is kept by the trim (`keptByTrim`, over the topic's rows after
the insert), rows of other topics are untouched.  The remaining `Err` paths of
the Rust function are rusqlite driver failures, which the pure model cannot
produce. -/
def insert_value (s : DbState) (topic : String) (value : String) : Except String DbState :=
  match findTopic s topic with
  | none => Except.ok s
  | some t =>
      Except.ok { s with
        topic_values :=
          (s.topic_values ++ [newValueRow s t.id value]).filter
            (fun r => (!(decide (r.topic_id = t.id))) ||
              keptByTrim ((s.topic_values ++ [newValueRow s t.id value]).filter
                (fun r => decide (r.topic_id = t.id))) t.max_values r),
        nextValueId := s.nextValueId + 1,
        clock := s.clock + 1 }

/-- Run one `insert_value` the way the event handler does: an error is logged
and the caller carries on with the previous state (`handle_event` logs insert
failures and never propagates them). -/
def applyInsert (s : DbState) (topic : String) (value : String) : DbState :=
  match insert_value s topic value with
  | Except.ok s2 => s2
  | Except.error _ => s

/-- A sequence of `insert_value` calls for one topic, in order. -/
def insertMany (s : DbState) (topic : String) (vs : List String) : DbState :=
  vs.foldl (fun acc v => applyInsert acc topic v) s

/-- The last `n` elements of a list (the `n` most recent rows when the list is
in ascending timestamp order). -/
def lastN {α : Type _} (n : Nat) (xs : List α) : List α := xs.drop (xs.length - n)

/-! ## The connection-serve loop of `MqttService::start` -/

/-- How one completed iteration of the outer loop of `MqttService::start` ends:
either the TLS certificate is missing/unreadable (the loop breaks), or the
subscribe to the control topic fails, or it succeeds (`Connected`) and the
event loop later returns an error (connection lost).  An iteration whose event
loop never fails simply has no successor step. -/
inductive IterOutcome where
  | tlsErr
  | subErr
  | subOk
deriving DecidableEq

/-- The loop-local state of `MqttService::start`, with ghost observables:
`attempts` counts completed connect/subscribe attempts, `consecFails` counts
failures since the last successful subscribe (a `subOk` iteration ends in one
lost connection), and `sleeps` records each backoff sleep in milliseconds. -/
structure StartState where
  retries : Int
  interval : Nat
  stopped : Bool
  attempts : Nat
  consecFails : Nat
  sleeps : List Nat
deriving DecidableEq

/-- Loop state on entry: `retry_interval = initial_retry_interval`, `retries = 0`. -/
def initStart (base : Nat) : StartState :=
  { retries := 0, interval := base, stopped := false, attempts := 0, consecFails := 0, sleeps := [] }

/-- Computation of the retry budget, `if mqtt_max_retries > 0 then mqtt_max_retries else -1`
(`-1` meaning unlimited). -/
def maxRetriesOf (cfg : Int) : Int := if 0 < cfg then cfg else -1

/-- One iteration of the outer loop: the top-of-loop budget check
`max_retries != -1 && retries >= max_retries` breaks the loop; a TLS
configuration failure breaks the loop; a failed subscribe increments `retries`,
sleeps `retry_interval`, then doubles it capped at 60 s; a successful subscribe
resets the interval to `base`, and the subsequent lost connection increments
`retries`, sleeps the (reset) interval, then doubles it capped at 60 s. -/
def stepStart (maxR : Int) (base : Nat) (st : StartState) (out : IterOutcome) : StartState :=
  if st.stopped then st
  else if maxR ≠ -1 ∧ maxR ≤ st.retries then { st with stopped := true }
  else
    match out with
    | IterOutcome.tlsErr => { st with stopped := true }
    | IterOutcome.subErr =>
        { st with retries := st.retries + 1, attempts := st.attempts + 1,
                  consecFails := st.consecFails + 1,
                  sleeps := st.sleeps ++ [st.interval],
                  interval := min (st.interval * 2) 60000 }
    | IterOutcome.subOk =>
        { st with retries := st.retries + 1, attempts := st.attempts + 1,
                  consecFails := 1,
                  sleeps := st.sleeps ++ [base],
                  interval := min (base * 2) 60000 }

/-- The loop state after `k` completed iterations, the environment `env`
choosing each iteration's outcome. -/
def runStart (maxR : Int) (base : Nat) (env : Nat → IterOutcome) : Nat → StartState
  | 0 => initStart base
  | k + 1 => stepStart maxR base (runStart maxR base env k) (env k)

/-- Environment for the mixed trace: fail, succeed (then lose the
connection), fail, fail, ... -/
def envMix : Nat → IterOutcome := fun i => if i = 1 then IterOutcome.subOk else IterOutcome.subErr

/-- Environment in which every connect attempt fails. -/
def envAllErr : Nat → IterOutcome := fun _ => IterOutcome.subErr

/-- Environment: one successful subscribe whose connection is then lost,
followed by failed attempts. -/
def envLost : Nat → IterOutcome := fun i => if i = 0 then IterOutcome.subOk else IterOutcome.subErr

/-! ## The event dispatcher `MqttService::handle_event` -/

/-- MQTT quality of service levels. -/
inductive QoS where
  | atMostOnce
  | atLeastOnce
  | exactlyOnce
deriving DecidableEq

/-- The packet kinds `handle_event` distinguishes: an inbound publish (topic
plus raw payload bytes), a connection acknowledgement, anything else. -/
inductive Packet where
  | publish (topic : String) (payload : List Nat)
  | connAck
  | otherPacket
deriving DecidableEq

/-- Type `rumqttc::Event`: an incoming packet or an outgoing one. -/
inductive Event where
  | incoming (p : Packet)
  | outgoing
deriving DecidableEq

/-- The externally visible effect of one `handle_event` call.
`insertAt path topic payload` means: construct a NEW `DatabaseService` at file
`path` (a fresh connection guarded by a fresh mutex, not the long-lived store
instance) and call `insert_value (topic, payload)` on it, logging and not
propagating failures.  `subscribeWildcard` is the wildcard subscription, and
`logOnly` covers the branches that only log. -/
inductive HandleAction where
  | insertAt (dbPath : String) (topic : String) (payload : String)
  | subscribeWildcard (topic : String) (qos : QoS)
  | logOnly
deriving DecidableEq

/-! ### UTF-8 decoding (`String::from_utf8`) -/

/-- Is `b` a UTF-8 continuation byte (`0x80..=0xBF`)? -/
def isCont (b : Nat) : Bool := decide (128 ≤ b) && decide (b < 192)

/-- Strict UTF-8 decoding of a byte list to code points, as validated by
`String::from_utf8`: rejects stray continuation bytes, overlong encodings,
surrogates and code points beyond U+10FFFF. -/
def utf8DecodeCps : List Nat → Option (List Nat)
  | [] => some []
  | b :: bs =>
    if b < 128 then
      match utf8DecodeCps bs with
      | some cps => some (b :: cps)
      | none => none
    else if b < 194 then none
    else if b < 224 then
      match bs with
      | b1 :: bs1 =>
        if isCont b1 then
          match utf8DecodeCps bs1 with
          | some cps => some (((b - 192) * 64 + (b1 - 128)) :: cps)
          | none => none
        else none
      | [] => none
    else if b < 240 then
      match bs with
      | b1 :: b2 :: bs2 =>
        if isCont b1 && isCont b2 then
          let cp := (b - 224) * 4096 + (b1 - 128) * 64 + (b2 - 128)
          if decide (2048 ≤ cp) && !(decide (55296 ≤ cp) && decide (cp < 57344)) then
            match utf8DecodeCps bs2 with
            | some cps => some (cp :: cps)
            | none => none
          else none
        else none
      | _ => none
    else if b < 245 then
      match bs with
      | b1 :: b2 :: b3 :: bs3 =>
        if isCont b1 && isCont b2 && isCont b3 then
          let cp := (b - 240) * 262144 + (b1 - 128) * 4096 + (b2 - 128) * 64 + (b3 - 128)
          if decide (65536 ≤ cp) && decide (cp ≤ 1114111) then
            match utf8DecodeCps bs3 with
            | some cps => some (cp :: cps)
            | none => none
          else none
        else none
      | _ => none
    else none

/-- Fallback decoding, Rust `String::from_utf8(bytes).unwrap_or_default()`: the decoded
string, or the empty string when the bytes are not valid UTF-8. -/
def decodeUtf8OrEmpty (bs : List Nat) : String :=
  match utf8DecodeCps bs with
  | some cps => String.mk (cps.map Char.ofNat)
  | none => ""

/-- The `MqttConfig` struct of `mqtt_service.rs`. -/
structure MqttConfig where
  mqtt_host : String
  mqtt_port : Nat
  mqtt_username : String
  mqtt_password : String
  mqtt_ssl_enabled : Bool
  mqtt_ssl_cert_path : Option String
  log_topic : String
  status_topic : String
  command_topic : String
  progress_topic : String
  analytics_topic : String
  mqtt_max_retries : Int
  mqtt_retry_interval_ms : Nat
deriving DecidableEq

/-- Operation `MqttService::handle_event`.  `clientPresent` is whether `self.client`
currently holds a client (it always does by the time the event loop runs, the
driver storing the client before polling).  Note that the handler never
consults `cfg` — in particular it does not compare the publish topic against
`cfg.command_topic`: every inbound publish is routed to a database insert. -/
def handle_event (cfg : MqttConfig) (clientPresent : Bool) (e : Event) : HandleAction :=
  match e with
  | Event.incoming (Packet.publish topic payload) =>
      HandleAction.insertAt "mqtt_storage.db" topic (decodeUtf8OrEmpty payload)
  | Event.incoming Packet.connAck =>
      if clientPresent then HandleAction.subscribeWildcard "#" QoS.atMostOnce
      else HandleAction.logOnly
  | _ => HandleAction.logOnly

/-- A sample configuration (the default topic layout of `config.rs`). -/
def cfgEx : MqttConfig :=
  { mqtt_host := "localhost", mqtt_port := 1883, mqtt_username := "", mqtt_password := "",
    mqtt_ssl_enabled := false, mqtt_ssl_cert_path := none,
    log_topic := "image_uploader/logs", status_topic := "image_uploader/status",
    command_topic := "image_uploader/commands", progress_topic := "image_uploader/progress",
    analytics_topic := "image_uploader/analytics", mqtt_max_retries := -1,
    mqtt_retry_interval_ms := 5000 }

/-! ## The bounded-retry publisher `MqttService::publish_message` -/

/-- What one iteration of the `for _ in 0..5` loop of `publish_message`
observes after locking `self.client`: no client stored, a failed publish, or a
successful publish. -/
inductive PubAttempt where
  | noClient
  | pubErr
  | pubOk
deriving DecidableEq

/-- The observable trace of one `publish_message` call: how many delivery
attempts were made (client-handle acquisitions), how many 1-second sleeps were
performed, whether the message was delivered, and whether the terminal
"failed after multiple retries" error was logged.  The Rust function returns
`()` — there is no error value a caller could receive. -/
structure PublishTrace where
  attempts : Nat
  sleeps : Nat
  delivered : Bool
  terminalLogged : Bool
deriving DecidableEq

/-- The retry loop of `publish_message`: on success return at once (no further
sleep); on failure (no client, or publish error) log, sleep 1 second, and go
round again; when the fuel (loop bound 5) is exhausted, log the terminal
failure and return normally. -/
def publishLoop (env : Nat → PubAttempt) (done : Nat) : Nat → PublishTrace
  | 0 => { attempts := done, sleeps := done, delivered := false, terminalLogged := true }
  | fuel + 1 =>
    match env done with
    | PubAttempt.pubOk =>
        { attempts := done + 1, sleeps := done, delivered := true, terminalLogged := false }
    | _ => publishLoop env (done + 1) fuel

/-- Operation `MqttService::publish_message` for a fixed topic/message/QoS/retain:
`for _ in 0..5 { ... }` then the terminal error log. -/
def publish_message (env : Nat → PubAttempt) : PublishTrace := publishLoop env 0 5

/-! ## Progress tracking (`progress_tracker.rs`, `service_utils.rs`) -/

/-- The result of the `f64` percentage computation
`(progress as f64 / total as f64) * 100.0` on nonnegative integer inputs:
a finite value (binary rounding abstracted to the exact rational), NaN
(`0.0 / 0.0`), or positive infinity (`p / 0.0` with `p > 0`). -/
inductive F64 where
  | finite (q : ℚ)
  | nan
  | inf
deriving DecidableEq

/-- IEEE semantics of `(p as f64 / t as f64) * 100.0` at the points the claims
are about: a zero divisor yields NaN or infinity, never a finite number. -/
def f64Pct (p t : Nat) : F64 :=
  if t = 0 then (if p = 0 then F64.nan else F64.inf)
  else F64.finite ((p : ℚ) / (t : ℚ) * 100)

/-- The JSON progress payload assembled by `service_utils::publish_progress`:
`{"progress": .., "total": .., "percentage": ..}` where the percentage is
`(progress as f64 / total as f64) * 100.0` with NO guard on `total = 0`. -/
structure ProgressReport where
  progress : Nat
  total : Nat
  percentage : F64
deriving DecidableEq

/-- Operation `service_utils::publish_progress`: builds the progress report and hands it
to `publish_message` (best effort). -/
def publish_progress (progress : Nat) (total : Nat) : ProgressReport :=
  { progress := progress, total := total, percentage := f64Pct progress total }

/-- The per-task state of `ProgressTracker`: total size, uploaded size,
cancelled flag. -/
structure ProgressTracker where
  total_size : Nat
  uploaded_size : Nat
  cancelled : Bool
deriving DecidableEq

/-- Operation `ProgressTracker::update_progress(bytes_uploaded)`: a no-op once cancelled;
otherwise adds to `uploaded_size` and emits a report through
`publish_progress(uploaded, total)`. -/
def update_progress (tr : ProgressTracker) (bytes : Nat) : ProgressTracker × Option ProgressReport :=
  if tr.cancelled then (tr, none)
  else
    let uploaded := tr.uploaded_size + bytes
    ({ tr with uploaded_size := uploaded }, some (publish_progress uploaded tr.total_size))

/-- The percentage `update_progress` prints to its own log (`info!` line):
this one IS guarded — `if total_size > 0 { uploaded/total*100 } else { 0.0 }`. -/
def update_progress_logged_pct (tr : ProgressTracker) (bytes : Nat) : F64 :=
  if 0 < tr.total_size then F64.finite (((tr.uploaded_size + bytes : Nat) : ℚ) / (tr.total_size : ℚ) * 100)
  else F64.finite 0

/-- Operation `ProgressTracker::stop`: sets the cancelled flag and publishes a reset
report via `publish_progress(0, 0)`. -/
def stop (tr : ProgressTracker) : ProgressTracker × ProgressReport :=
  ({ tr with cancelled := true }, publish_progress 0 0)

/-! ## Concrete states used by the witnesses -/

/-- The database after registering `sensor/temp` with `max_values = 3`
(the scenario of spec §8). -/
def witState : DbState := add_or_update_topic initState "sensor/temp" none 3 1000

/-- The `topics` row created by that registration. -/
def witTopicRow : TopicRow :=
  { id := 1, topic := "sensor/temp", parent_topic := none, max_values := 3, query_frequency_ms := 1000 }

/-! ## C5: `insert_value` on an unregistered topic -/

/-- Claim C5: a call to `insert_value` with a topic string not registered in
the `topics` table returns success (`Ok(())`; no error reaches the caller),
creates no topic row and stores no value row — the state is returned
unchanged, the value dropped with only a logged warning. -/
theorem insert_value_unregistered (s : DbState) (topic v : String)
    (h : findTopic s topic = none) :
    insert_value s topic v = Except.ok s := by
  unfold insert_value
  rw [h]

/-- Witness for C5: on the fresh database, `unknown/topic` is unregistered and
the insert returns the unchanged state successfully. -/
theorem insert_value_unregistered_witness :
    findTopic initState "unknown/topic" = none ∧
      insert_value initState "unknown/topic" "x" = Except.ok initState :=
  ⟨by decide, insert_value_unregistered initState "unknown/topic" "x" (by decide)⟩

/-! ## C3 / C9 / C10: the event dispatcher -/

/-- Counterexample to claim C3: an inbound publish on the configured control
topic (`cfgEx.command_topic`) is NOT forwarded to command handling — the
handler does not compare the topic against the control topic at all, and there
is no command-forwarding branch; the publish is persisted by a database insert
exactly like any other publish. -/
theorem handle_event_control_topic_persisted_cex :
    handle_event cfgEx true (Event.incoming (Packet.publish cfgEx.command_topic [49])) =
      HandleAction.insertAt "mqtt_storage.db" cfgEx.command_topic "1" := by
  rfl

/-- Amended claim C3: every inbound publish — the control topic included, which
receives no special treatment and is never forwarded to command handling — is
passed to a database insert (`insert_value`, failures logged and never
propagated); a connection-acknowledged event triggers the wildcard
subscription at most-once quality; all other event kinds are logged and
discarded. -/
theorem handle_event_routing (cfg : MqttConfig) (topic : String) (payload : List Nat) :
    handle_event cfg true (Event.incoming (Packet.publish topic payload)) =
      HandleAction.insertAt "mqtt_storage.db" topic (decodeUtf8OrEmpty payload) ∧
    handle_event cfg true (Event.incoming Packet.connAck) =
      HandleAction.subscribeWildcard "#" QoS.atMostOnce ∧
    handle_event cfg true (Event.incoming Packet.otherPacket) = HandleAction.logOnly ∧
    handle_event cfg true Event.outgoing = HandleAction.logOnly :=
  ⟨rfl, rfl, rfl, rfl⟩

/-- Claim C9 evaluated on the code: every inbound publish is persisted through
`HandleAction.insertAt "mqtt_storage.db" ..`, i.e. by constructing a NEW
`DatabaseService` (a fresh connection guarded by a fresh mutex) inside the
handler, for every event — storage IS reopened per event, and the
insert-then-trim pair runs under that per-event lock rather than under the
single long-lived store instance's exclusive section. -/
theorem handle_event_reopens_storage (cfg : MqttConfig) (b : Bool) (topic : String)
    (payload : List Nat) :
    handle_event cfg b (Event.incoming (Packet.publish topic payload)) =
      HandleAction.insertAt "mqtt_storage.db" topic (decodeUtf8OrEmpty payload) := by
  cases b <;> rfl

/-- Claim C10: an inbound publish whose payload bytes are not valid UTF-8 is
neither dropped nor an error — the payload is replaced by the empty string and
an empty-string value is (attempted to be) stored for the topic. -/
theorem handle_event_invalid_utf8_empty (cfg : MqttConfig) (b : Bool) (topic : String)
    (payload : List Nat) (h : utf8DecodeCps payload = none) :
    handle_event cfg b (Event.incoming (Packet.publish topic payload)) =
      HandleAction.insertAt "mqtt_storage.db" topic "" := by
  cases b <;> simp [handle_event, decodeUtf8OrEmpty, h]

/-- Witness for C10: the single byte `0xFF` is not valid UTF-8 and the handler
stores the empty string for the topic. -/
theorem handle_event_invalid_utf8_empty_witness :
    utf8DecodeCps [255] = none ∧
      handle_event cfgEx true (Event.incoming (Packet.publish "sensor/raw" [255])) =
        HandleAction.insertAt "mqtt_storage.db" "sensor/raw" "" :=
  ⟨by decide, handle_event_invalid_utf8_empty cfgEx true "sensor/raw" [255] (by decide)⟩

/-! ## C8: the published percentage divides by zero -/

/-- Claim C8 evaluated at the failing inputs: the percentage published by the
publish path is NOT guarded on `total = 0`.  `stop` publishes
`publish_progress(0, 0)`, whose percentage is `0.0 / 0.0 * 100.0 = NaN`, and an
update on a tracker with `total_size = 0` publishes an infinite percentage —
in both cases the division by zero occurs and the reported percentage is not
`0` (only the tracker's own log line is guarded). -/
theorem publish_progress_zero_total_divzero :
    (stop { total_size := 200, uploaded_size := 50, cancelled := false }).2.percentage = F64.nan ∧
    (update_progress { total_size := 0, uploaded_size := 0, cancelled := false } 7).2 =
      some { progress := 7, total := 0, percentage := F64.inf } ∧
    update_progress_logged_pct { total_size := 0, uploaded_size := 0, cancelled := false } 7 =
      F64.finite 0 ∧
    F64.nan ≠ F64.finite 0 ∧ F64.inf ≠ F64.finite 0 := by
  refine ⟨rfl, rfl, rfl, ?_, ?_⟩ <;> intro h <;> cases h

/-! ## C6: the bounded-retry publisher -/

/-- Over any environment, the retry loop makes at most `done + fuel` attempts. -/
theorem publishLoop_attempts_le (env : Nat → PubAttempt) :
    ∀ (fuel done : Nat), (publishLoop env done fuel).attempts ≤ done + fuel := by
  intro fuel
  induction fuel with
  | zero => intro done; simp [publishLoop]
  | succ n ih =>
    intro done
    rw [publishLoop]
    cases env done with
    | pubOk => dsimp only; omega
    | pubErr =>
      dsimp only
      have := ih (done + 1)
      omega
    | noClient =>
      dsimp only
      have := ih (done + 1)
      omega

/-- If every attempt in the window fails, the loop performs every attempt and
every sleep, delivers nothing, and logs the terminal failure. -/
theorem publishLoop_all_fail (env : Nat → PubAttempt) :
    ∀ (fuel done : Nat), (∀ i, done ≤ i → i < done + fuel → env i ≠ PubAttempt.pubOk) →
      publishLoop env done fuel =
        { attempts := done + fuel, sleeps := done + fuel, delivered := false,
          terminalLogged := true } := by
  intro fuel
  induction fuel with
  | zero => intro done _; simp [publishLoop]
  | succ n ih =>
    intro done h
    rw [publishLoop]
    have hd : env done ≠ PubAttempt.pubOk := h done (Nat.le_refl _) (by omega)
    cases he : env done with
    | pubOk => exact absurd he hd
    | pubErr =>
      simp only
      rw [ih (done + 1) (fun i h1 h2 => h i (by omega) (by omega))]
      have : done + 1 + n = done + (n + 1) := by omega
      rw [this]
    | noClient =>
      simp only
      rw [ih (done + 1) (fun i h1 h2 => h i (by omega) (by omega))]
      have : done + 1 + n = done + (n + 1) := by omega
      rw [this]

/-- When the loop delivers, it returned at once on the successful attempt:
one fewer sleep than attempts, and no terminal failure logged. -/
theorem publishLoop_delivered (env : Nat → PubAttempt) :
    ∀ (fuel done : Nat), (publishLoop env done fuel).delivered = true →
      (publishLoop env done fuel).sleeps + 1 = (publishLoop env done fuel).attempts ∧
      (publishLoop env done fuel).terminalLogged = false := by
  intro fuel
  induction fuel with
  | zero => intro done h; simp [publishLoop] at h
  | succ n ih =>
    intro done
    rw [publishLoop]
    cases env done with
    | pubOk => intro _; simp
    | pubErr => exact ih (done + 1)
    | noClient => exact ih (done + 1)

/-- Claim C6: `publish_message` makes at most 5 delivery attempts, sleeping one
second after each failed attempt; when every attempt fails (in particular when
no client is present for the whole call) it makes exactly 5 attempts with 5
one-second sleeps, delivers nothing, logs the terminal failure and returns
normally — the trace type has no error outcome, matching the Rust return type
`()`; and on delivery it returns at once with one sleep between consecutive
attempts and no terminal failure. -/
theorem publish_message_budget (env : Nat → PubAttempt)
    (h : ∀ i, i < 5 → env i ≠ PubAttempt.pubOk) :
    (∀ e : Nat → PubAttempt, (publish_message e).attempts ≤ 5) ∧
    publish_message env =
      { attempts := 5, sleeps := 5, delivered := false, terminalLogged := true } ∧
    (∀ e : Nat → PubAttempt, (publish_message e).delivered = true →
      (publish_message e).sleeps + 1 = (publish_message e).attempts ∧
      (publish_message e).terminalLogged = false) := by
  refine ⟨fun e => publishLoop_attempts_le e 5 0, ?_, fun e => publishLoop_delivered e 5 0⟩
  have := publishLoop_all_fail env 5 0 (fun i _ h2 => h i (by omega))
  simpa [publish_message] using this

/-- Witness for C6: with no live client present throughout, the call makes
exactly 5 attempts at 1-second spacing and returns without an error value. -/
theorem publish_message_budget_witness :
    publish_message (fun _ => PubAttempt.noClient) =
      { attempts := 5, sleeps := 5, delivered := false, terminalLogged := true } :=
  (publish_message_budget (fun _ => PubAttempt.noClient) (fun i _ => by simp)).2.1

/-! ## C2 / C4: the connection-serve loop -/

/-- With an unlimited budget (`max_retries = -1`) and no TLS configuration
failure, the loop never stops and completes every iteration. -/
theorem runStart_unlimited (base : Nat) (env : Nat → IterOutcome)
    (henv : ∀ i, env i ≠ IterOutcome.tlsErr) :
    ∀ k, (runStart (-1) base env k).stopped = false ∧ (runStart (-1) base env k).attempts = k := by
  intro k
  induction k with
  | zero => exact ⟨rfl, rfl⟩
  | succ n ih =>
    rw [runStart, stepStart.eq_def, ih.1, if_neg Bool.false_ne_true]
    have hcond : ¬((-1 : Int) ≠ -1 ∧ (-1 : Int) ≤ (runStart (-1) base env n).retries) :=
      fun hc => hc.1 rfl
    rw [if_neg hcond]
    cases he : env n with
    | tlsErr => exact absurd he (henv n)
    | subErr => exact ⟨rfl, by dsimp only; rw [ih.2]⟩
    | subOk => exact ⟨rfl, by dsimp only; rw [ih.2]⟩

/-- With a positive budget `m` and no TLS failure, after `k` completed
iterations the loop has made `min m k` attempts, its cumulative counter equals
that number (it is never reset, not even by a successful subscribe), and it
has stopped exactly when `k > m`. -/
theorem runStart_pos_inv (m : Nat) (hm : 1 ≤ m) (base : Nat) (env : Nat → IterOutcome)
    (henv : ∀ i, env i ≠ IterOutcome.tlsErr) :
    ∀ k, (runStart (m : Int) base env k).attempts = min m k ∧
      (runStart (m : Int) base env k).retries = ((min m k : Nat) : Int) ∧
      (runStart (m : Int) base env k).stopped = decide (m < k) := by
  intro k
  induction k with
  | zero => refine ⟨?_, ?_, ?_⟩ <;> simp [runStart, initStart]
  | succ n ih =>
    obtain ⟨ha, hr, hs⟩ := ih
    rw [runStart, stepStart.eq_def]
    by_cases hlt : m < n
    · -- already stopped: the state is frozen
      have hstop : (runStart (m : Int) base env n).stopped = true := by
        rw [hs]; simp [hlt]
      rw [hstop, if_pos rfl]
      refine ⟨?_, ?_, ?_⟩
      · rw [ha]; omega
      · rw [hr]; congr 1; omega
      · rw [hstop]; symm; rw [decide_eq_true_eq]; omega
    · have hstop : (runStart (m : Int) base env n).stopped = false := by
        rw [hs]; simp; omega
      rw [hstop, if_neg Bool.false_ne_true]
      by_cases heq : m ≤ n
      · -- threshold reached this iteration: the loop breaks, nothing consumed
        have hmn : m = n := by omega
        have hcond : ((m : Int) ≠ -1 ∧ (m : Int) ≤ (runStart (m : Int) base env n).retries) := by
          refine ⟨by omega, ?_⟩
          rw [hr]
          have : min m n = m := by omega
          rw [this]
        rw [if_pos hcond]
        refine ⟨?_, ?_, ?_⟩ <;> dsimp only
        · rw [ha]; omega
        · rw [hr]; congr 1; omega
        · symm; rw [decide_eq_true_eq]; omega
      · -- budget not yet exhausted: the iteration completes
        have hcond : ¬((m : Int) ≠ -1 ∧ (m : Int) ≤ (runStart (m : Int) base env n).retries) := by
          intro hc
          have h2 := hc.2
          rw [hr] at h2
          have hmin : min m n = n := by omega
          rw [hmin] at h2
          have : m ≤ n := by exact_mod_cast h2
          omega
        rw [if_neg hcond]
        cases he : env n with
        | tlsErr => exact absurd he (henv n)
        | subErr =>
          refine ⟨?_, ?_, ?_⟩ <;> dsimp only
          · rw [ha]; omega
          · rw [hr]; push_cast; omega
          · symm; rw [decide_eq_false_iff_not]; omega
        | subOk =>
          refine ⟨?_, ?_, ?_⟩ <;> dsimp only
          · rw [ha]; omega
          · rw [hr]; push_cast; omega
          · symm; rw [decide_eq_false_iff_not]; omega

/-- Counterexample to claim C2: with `max-retries = 3` and the trace
fail / successful-subscribe-then-lost-connection / fail, the loop has stopped
permanently although only 2 consecutive failures have occurred since the last
successful subscribe — the `retries` counter is cumulative and is never reset
by a success, so termination does not wait for 3 consecutive failures. -/
theorem start_retry_not_consecutive_cex :
    (runStart (maxRetriesOf 3) 5000 envMix 4).stopped = true ∧
      (runStart (maxRetriesOf 3) 5000 envMix 4).consecFails = 2 ∧
      (2 : Nat) ≠ 3 := by
  refine ⟨by decide, by decide, by decide⟩

/-- Amended claim C2: a non-positive configured max-retries value means
unlimited retries; a positive value `m` bounds the CUMULATIVE number of
completed connect cycles — each failed connect/subscribe attempt and each lost
connection increments the counter, and a successful subscribe does not reset
it — so the loop terminates permanently once `m` cycles have completed since
the start (not since the last success); in particular, with `max-retries = 3`
and every connect attempt failing, exactly 3 attempts are made and then the
loop stops. -/
theorem start_cumulative_retry_budget (m : Nat) (hm : 1 ≤ m) (base : Nat)
    (env : Nat → IterOutcome) (henv : ∀ i, env i ≠ IterOutcome.tlsErr) :
    (∀ c : Int, c ≤ 0 → maxRetriesOf c = -1) ∧
    maxRetriesOf (m : Int) = (m : Int) ∧
    (∀ k, (runStart (maxRetriesOf 0) base env k).stopped = false ∧
      (runStart (maxRetriesOf 0) base env k).attempts = k) ∧
    (∀ k, (runStart (m : Int) base env k).attempts = min m k ∧
      (runStart (m : Int) base env k).stopped = decide (m < k)) := by
  refine ⟨?_, ?_, ?_, ?_⟩
  · intro c hc
    unfold maxRetriesOf
    rw [if_neg]
    omega
  · unfold maxRetriesOf
    rw [if_pos]
    exact_mod_cast hm
  · intro k
    have : maxRetriesOf 0 = -1 := by unfold maxRetriesOf; simp
    rw [this]
    exact runStart_unlimited base env henv k
  · intro k
    exact ⟨(runStart_pos_inv m hm base env henv k).1, (runStart_pos_inv m hm base env henv k).2.2⟩

/-- Witness for C2 (amended): `max-retries = 3`, every attempt failing —
after 3 iterations 3 attempts were made and the loop is not yet flagged
stopped; after a 4th top-of-loop check it is stopped with still exactly 3
attempts made. -/
theorem start_cumulative_retry_budget_witness :
    (runStart ((3 : Nat) : Int) 5000 envAllErr 3).attempts = min 3 3 ∧
      (runStart ((3 : Nat) : Int) 5000 envAllErr 4).stopped = decide (3 < 4) :=
  ⟨((start_cumulative_retry_budget 3 (by decide) 5000 envAllErr
      (fun i => by simp [envAllErr])).2.2.2 3).1,
   ((start_cumulative_retry_budget 3 (by decide) 5000 envAllErr
      (fun i => by simp [envAllErr])).2.2.2 4).2⟩

/-- Counterexample to claim C4: the configured base interval may legitimately
exceed 60 s (`config.rs` accepts `MQTT_RETRY_INTERVAL_MS` up to 1,000,000 ms).
With `base = 120000` ms, after a successful subscribe whose connection is then
lost (a `Connected → Disconnected` transition) the manager sleeps 120,000 ms,
and the next backoff sleep — with no successful subscribe in between — is the
60,000 ms cap: the backoff interval DECREASED after the transition. -/
theorem backoff_decreasing_cex :
    (runStart (-1) 120000 envLost 2).sleeps = [120000, 60000] ∧ (60000 : Nat) < 120000 := by
  refine ⟨by decide, by decide⟩

/-- Amended claim C4: on each failed connect/subscribe attempt or lost
connection the retry interval doubles and is capped at 60 s; a successful
subscription (and only it) resets the interval to the base value, the sleep
after the subsequent connection loss using the reset base; and PROVIDED the
configured base interval is at most 60 s, every reachable interval stays in
`[base, 60000]` and a failed attempt never decreases it — so after a
`Connected → Disconnected` transition the backoff interval is non-decreasing
until the next successful subscribe.  (With a base above 60 s — allowed by the
configuration bounds — the second sleep drops to the 60 s cap.) -/
theorem backoff_policy (base : Nat) (hbase : base ≤ 60000) (maxR : Int)
    (env : Nat → IterOutcome) :
    (∀ st : StartState, st.stopped = false → ¬(maxR ≠ -1 ∧ maxR ≤ st.retries) →
      (stepStart maxR base st IterOutcome.subErr).interval = min (st.interval * 2) 60000 ∧
      (stepStart maxR base st IterOutcome.subErr).sleeps = st.sleeps ++ [st.interval] ∧
      (stepStart maxR base st IterOutcome.subOk).interval = min (base * 2) 60000 ∧
      (stepStart maxR base st IterOutcome.subOk).sleeps = st.sleeps ++ [base]) ∧
    (∀ k, base ≤ (runStart maxR base env k).interval ∧
      (runStart maxR base env k).interval ≤ 60000) ∧
    (∀ st : StartState, st.interval ≤ 60000 →
      st.interval ≤ (stepStart maxR base st IterOutcome.subErr).interval) := by
  refine ⟨?_, ?_, ?_⟩
  · intro st hstop hcond
    have h1 : stepStart maxR base st IterOutcome.subErr =
        { st with retries := st.retries + 1, attempts := st.attempts + 1,
                  consecFails := st.consecFails + 1,
                  sleeps := st.sleeps ++ [st.interval],
                  interval := min (st.interval * 2) 60000 } := by
      rw [stepStart.eq_def, hstop, if_neg Bool.false_ne_true, if_neg hcond]
    have h2 : stepStart maxR base st IterOutcome.subOk =
        { st with retries := st.retries + 1, attempts := st.attempts + 1,
                  consecFails := 1,
                  sleeps := st.sleeps ++ [base],
                  interval := min (base * 2) 60000 } := by
      rw [stepStart.eq_def, hstop, if_neg Bool.false_ne_true, if_neg hcond]
    rw [h1, h2]
    exact ⟨rfl, rfl, rfl, rfl⟩
  · intro k
    induction k with
    | zero => exact ⟨Nat.le_refl _, hbase⟩
    | succ n ih =>
      obtain ⟨ih1, ih2⟩ := ih
      rw [runStart, stepStart.eq_def]
      cases hstop : (runStart maxR base env n).stopped with
      | true => rw [if_pos rfl]; exact ⟨ih1, ih2⟩
      | false =>
        rw [if_neg Bool.false_ne_true]
        by_cases hcond : maxR ≠ -1 ∧ maxR ≤ (runStart maxR base env n).retries
        · rw [if_pos hcond]; exact ⟨ih1, ih2⟩
        · rw [if_neg hcond]
          cases env n with
          | tlsErr => exact ⟨ih1, ih2⟩
          | subErr => exact ⟨by dsimp only; omega, by dsimp only; omega⟩
          | subOk => exact ⟨by dsimp only; omega, by dsimp only; omega⟩
  · intro st hle
    rw [stepStart.eq_def]
    cases hstop : st.stopped with
    | true => rw [if_pos rfl]
    | false =>
      rw [if_neg Bool.false_ne_true]
      by_cases hcond : maxR ≠ -1 ∧ maxR ≤ st.retries
      · rw [if_pos hcond]
      · rw [if_neg hcond]
        dsimp only
        omega

/-- Witness for C4 (amended): with the default base of 5,000 ms, after the
trace success-then-lost, fail, fail the reachable interval is within bounds
and one more failed attempt does not decrease it. -/
theorem backoff_policy_witness :
    (5000 ≤ (runStart (-1) 5000 envLost 3).interval ∧
      (runStart (-1) 5000 envLost 3).interval ≤ 60000) ∧
    (initStart 5000).interval ≤ (stepStart (-1) 5000 (initStart 5000) IterOutcome.subErr).interval :=
  ⟨(backoff_policy 5000 (by decide) (-1) envLost).2.1 3,
   (backoff_policy 5000 (by decide) (-1) envLost).2.2 (initStart 5000) (by decide)⟩

/-! ## C7: the topic upsert is last-write-wins on the topic name -/

/-- Mapping the conflict-update over the table and then filtering for the
topic name gives the matching rows with the new metadata (ids preserved). -/
theorem filter_map_upsert (topic : String) (p : Option String) (m q : Nat) :
    ∀ l : List TopicRow,
      (l.map (fun t => if t.topic = topic then
          { t with parent_topic := p, max_values := (m : Int), query_frequency_ms := (q : Int) }
        else t)).filter (fun t => decide (t.topic = topic)) =
      (l.filter (fun t => decide (t.topic = topic))).map
        (fun t => { id := t.id, topic := topic, parent_topic := p, max_values := (m : Int),
                    query_frequency_ms := (q : Int) }) := by
  intro l
  induction l with
  | nil => rfl
  | cons a l ih =>
    by_cases h : a.topic = topic
    · simp only [List.map_cons, List.filter_cons]
      rw [if_pos h]
      simp only [h, decide_True, if_pos rfl]
      rw [ih]
      rfl
    · simp only [List.map_cons, List.filter_cons]
      rw [if_neg h]
      simp only [h, decide_False]
      rw [if_neg Bool.false_ne_true, if_neg Bool.false_ne_true]
      exact ih

/-- The row returned by `find?` satisfies the predicate (explicit-argument
form). -/
theorem find?_eq_some_pred (p : TopicRow → Bool) :
    ∀ (l : List TopicRow) (a : TopicRow), l.find? p = some a → p a = true := by
  intro l
  induction l with
  | nil => intro a h; exact absurd h (by simp)
  | cons x xs ih =>
    intro a h
    by_cases hx : p x = true
    · rw [List.find?_cons_of_pos _ hx] at h
      cases h
      exact hx
    · rw [List.find?_cons_of_neg _ hx] at h
      exact ih a h

/-- Lookup via `find?` skips a prefix none of whose elements satisfy the predicate. -/
theorem find?_append_of_none (p : TopicRow → Bool) :
    ∀ (l1 l2 : List TopicRow), (∀ x ∈ l1, ¬(p x = true)) →
      (l1 ++ l2).find? p = l2.find? p := by
  intro l1
  induction l1 with
  | nil => intro l2 _; rfl
  | cons a l ih =>
    intro l2 h
    rw [List.cons_append, List.find?_cons_of_neg _ (h a (List.mem_cons_self a l))]
    exact ih l2 (fun x hx => h x (List.mem_cons_of_mem a hx))

/-- Claim C7: upserting the same topic name twice (possibly with different
parent, `max_values`, `query_frequency_ms`) leaves exactly one matching topic
row, and its fields are those of the second upsert — an idempotent,
last-write-wins upsert keyed on the topic string.  The hypothesis is the
UNIQUE constraint of the `topics` table: at most one existing row per name. -/
theorem upsert_last_write_wins (s : DbState) (topic : String) (p1 p2 : Option String)
    (m1 m2 q1 q2 : Nat)
    (huniq : (s.topics.filter (fun t => decide (t.topic = topic))).length ≤ 1) :
    ∃ i : Nat,
      ((add_or_update_topic (add_or_update_topic s topic p1 m1 q1) topic p2 m2 q2).topics.filter
          (fun t => decide (t.topic = topic))) =
        [{ id := i, topic := topic, parent_topic := p2, max_values := (m2 : Int),
           query_frequency_ms := (q2 : Int) }] := by
  cases hfind : findTopic s topic with
  | some t0 =>
    -- the existing row: the filtered table is exactly [t0]
    have hfind' : s.topics.find? (fun t => decide (t.topic = topic)) = some t0 := hfind
    have ht0mem : t0 ∈ s.topics := List.mem_of_find?_eq_some hfind'
    have ht0p : (fun t : TopicRow => decide (t.topic = topic)) t0 = true :=
      find?_eq_some_pred (fun t : TopicRow => decide (t.topic = topic)) s.topics t0 hfind'
    have hmem : t0 ∈ s.topics.filter (fun t => decide (t.topic = topic)) :=
      List.mem_filter.mpr ⟨ht0mem, ht0p⟩
    have hsingle : s.topics.filter (fun t => decide (t.topic = topic)) = [t0] := by
      match hft : s.topics.filter (fun t => decide (t.topic = topic)) with
      | [] => rw [hft] at hmem; exact absurd hmem (List.not_mem_nil t0)
      | [x] =>
        rw [hft] at hmem
        rw [List.mem_singleton] at hmem
        rw [hmem]
        exact hft
      | x :: y :: rest => rw [hft] at huniq; simp at huniq
    have hs1 : add_or_update_topic s topic p1 m1 q1 =
        { s with topics := s.topics.map (fun t => if t.topic = topic then
            { t with parent_topic := p1, max_values := (m1 : Int),
                     query_frequency_ms := (q1 : Int) } else t) } := by
      rw [add_or_update_topic.eq_def, hfind]
    have hfilter1 : (add_or_update_topic s topic p1 m1 q1).topics.filter
        (fun t => decide (t.topic = topic)) =
        [{ id := t0.id, topic := topic, parent_topic := p1, max_values := (m1 : Int),
           query_frequency_ms := (q1 : Int) }] := by
      rw [hs1]
      rw [filter_map_upsert topic p1 m1 q1 s.topics, hsingle]
      rfl
    -- the second lookup finds the updated row, so the second upsert also updates
    have hmem2 : ({ id := t0.id, topic := topic, parent_topic := p1,
                    max_values := (m1 : Int),
                    query_frequency_ms := (q1 : Int) } : TopicRow) ∈
          (add_or_update_topic s topic p1 m1 q1).topics := by
      have hin : ({ id := t0.id, topic := topic, parent_topic := p1,
                    max_values := (m1 : Int),
                    query_frequency_ms := (q1 : Int) } : TopicRow) ∈
            (add_or_update_topic s topic p1 m1 q1).topics.filter
              (fun t => decide (t.topic = topic)) := by
        rw [hfilter1]; exact List.mem_singleton.mpr rfl
      exact List.mem_of_mem_filter hin
    cases hfind2 : findTopic (add_or_update_topic s topic p1 m1 q1) topic with
    | none =>
      exfalso
      have hfind2' : (add_or_update_topic s topic p1 m1 q1).topics.find?
          (fun t => decide (t.topic = topic)) = none := hfind2
      have hall := List.find?_eq_none.mp hfind2'
      exact hall _ hmem2 (by simp)
    | some u =>
      have hs2 : add_or_update_topic (add_or_update_topic s topic p1 m1 q1) topic p2 m2 q2 =
          { (add_or_update_topic s topic p1 m1 q1) with
            topics := (add_or_update_topic s topic p1 m1 q1).topics.map
              (fun t => if t.topic = topic then
                { t with parent_topic := p2, max_values := (m2 : Int),
                         query_frequency_ms := (q2 : Int) } else t) } := by
        rw [add_or_update_topic.eq_def, hfind2]
      refine ⟨t0.id, ?_⟩
      rw [hs2]
      rw [filter_map_upsert topic p2 m2 q2 _, hfilter1]
      rfl
  | none =>
    -- no existing row: the first upsert appends a fresh row
    have hfind' : s.topics.find? (fun t => decide (t.topic = topic)) = none := hfind
    have hall : ∀ x ∈ s.topics, ¬((fun t => decide (t.topic = topic)) x = true) :=
      List.find?_eq_none.mp hfind'
    have hs1 : add_or_update_topic s topic p1 m1 q1 =
        { s with
          topics := s.topics ++
            [{ id := s.nextTopicId, topic := topic, parent_topic := p1,
               max_values := (m1 : Int), query_frequency_ms := (q1 : Int) }],
          nextTopicId := s.nextTopicId + 1 } := by
      rw [add_or_update_topic.eq_def, hfind]
    have hfind2 : findTopic (add_or_update_topic s topic p1 m1 q1) topic =
        some { id := s.nextTopicId, topic := topic, parent_topic := p1,
               max_values := (m1 : Int), query_frequency_ms := (q1 : Int) } := by
      rw [hs1]
      show (s.topics ++ [_]).find? _ = _
      rw [find?_append_of_none _ s.topics _ hall]
      exact List.find?_cons_of_pos _ (by simp)
    have hfilter1 : (add_or_update_topic s topic p1 m1 q1).topics.filter
        (fun t => decide (t.topic = topic)) =
        [{ id := s.nextTopicId, topic := topic, parent_topic := p1,
           max_values := (m1 : Int), query_frequency_ms := (q1 : Int) }] := by
      rw [hs1]
      show (s.topics ++ [_]).filter _ = _
      rw [List.filter_append]
      rw [List.filter_eq_nil_iff.mpr hall]
      rw [List.nil_append]
      rw [List.filter_cons]
      rw [if_pos (by simp)]
      rfl
    have hs2 : add_or_update_topic (add_or_update_topic s topic p1 m1 q1) topic p2 m2 q2 =
        { (add_or_update_topic s topic p1 m1 q1) with
          topics := (add_or_update_topic s topic p1 m1 q1).topics.map
            (fun t => if t.topic = topic then
              { t with parent_topic := p2, max_values := (m2 : Int),
                       query_frequency_ms := (q2 : Int) } else t) } := by
      rw [add_or_update_topic.eq_def, hfind2]
    refine ⟨s.nextTopicId, ?_⟩
    rw [hs2]
    rw [filter_map_upsert topic p2 m2 q2 _, hfilter1]
    rfl

/-- Witness for C7: registering `t/a` twice with different metadata on the
fresh database leaves exactly one `t/a` row carrying the second values. -/
theorem upsert_last_write_wins_witness :
    ∃ i : Nat,
      ((add_or_update_topic (add_or_update_topic initState "t/a" none 5 100) "t/a"
          (some "t") 7 200).topics.filter (fun t => decide (t.topic = "t/a"))) =
        [{ id := i, topic := "t/a", parent_topic := some "t", max_values := ((7 : Nat) : Int),
           query_frequency_ms := ((200 : Nat) : Int) }] :=
  upsert_last_write_wins initState "t/a" none (some "t") 5 7 100 200 (by decide)

/-! ## C1: bounded retention — `insert_value` keeps the `max_values` most
recent rows per topic -/

theorem length_lastN {α : Type _} (n : Nat) (xs : List α) :
    (lastN n xs).length = min n xs.length := by
  simp only [lastN, List.length_drop]
  omega

theorem map_lastN {α β : Type _} (f : α → β) (n : Nat) (xs : List α) :
    (lastN n xs).map f = lastN n (xs.map f) := by
  simp only [lastN, List.map_drop, List.length_map]

theorem lastN_append_lastN {α : Type _} (n : Nat) (a b : List α) :
    lastN n (lastN n a ++ b) = lastN n (a ++ b) := by
  simp only [lastN]
  have h1 : a.drop (a.length - n) ++ b = (a ++ b).drop (a.length - n) :=
    (List.drop_append_of_le_length (Nat.sub_le _ _)).symm
  rw [h1, List.drop_drop]
  congr 1
  simp only [List.length_drop, List.length_append]
  omega

/-- On a list whose timestamps are strictly ascending, the rows with fewer
than `N` strictly-newer rows are exactly the last `N`. -/
theorem filter_newerCount_eq_lastN (N : Nat) :
    ∀ m : List ValueRow, m.Pairwise (fun a b => a.timestamp < b.timestamp) →
      m.filter (fun r => decide (newerCount m r < N)) = lastN N m := by
  intro m
  induction m with
  | nil => intro _; simp [lastN]
  | cons r rest ih =>
    intro hpw
    rw [List.pairwise_cons] at hpw
    obtain ⟨hhead, htail⟩ := hpw
    have hchead : newerCount (r :: rest) r = rest.length := by
      unfold newerCount
      rw [List.filter_cons]
      have h0 : decide (r.timestamp < r.timestamp) = false := by simp
      rw [h0, if_neg Bool.false_ne_true]
      rw [List.filter_eq_self.mpr]
      intro q hq
      exact decide_eq_true (hhead q hq)
    have hctail : ∀ x ∈ rest, newerCount (r :: rest) x = newerCount rest x := by
      intro x hx
      unfold newerCount
      rw [List.filter_cons]
      have hlt := hhead x hx
      have h0 : decide (x.timestamp < r.timestamp) = false := by
        simp
        omega
      rw [h0, if_neg Bool.false_ne_true]
    rw [List.filter_cons]
    have hrw : rest.filter (fun x => decide (newerCount (r :: rest) x < N)) =
        rest.filter (fun x => decide (newerCount rest x < N)) := by
      apply List.filter_congr
      intro x hx
      rw [hctail x hx]
    by_cases hlen : rest.length < N
    · rw [if_pos (by rw [hchead]; exact decide_eq_true hlen)]
      rw [hrw, ih htail]
      simp only [lastN, List.length_cons]
      have h1 : rest.length - N = 0 := by omega
      have h2 : rest.length + 1 - N = 0 := by omega
      rw [h1, h2]
      rfl
    · rw [if_neg (by rw [hchead]; simp [hlen])]
      rw [hrw, ih htail]
      simp only [lastN, List.length_cons]
      have h2 : rest.length + 1 - N = (rest.length - N) + 1 := by omega
      rw [h2, List.drop_succ_cons]

/-- Unfolding `insert_value` on a registered topic. -/
theorem insert_value_found (s : DbState) (topic v : String) (t : TopicRow)
    (hfind : findTopic s topic = some t) :
    insert_value s topic v = Except.ok { s with
      topic_values :=
        (s.topic_values ++ [newValueRow s t.id v]).filter
          (fun r => (!(decide (r.topic_id = t.id))) ||
            keptByTrim ((s.topic_values ++ [newValueRow s t.id v]).filter
              (fun r => decide (r.topic_id = t.id))) t.max_values r),
      nextValueId := s.nextValueId + 1,
      clock := s.clock + 1 } := by
  rw [insert_value.eq_def, hfind]

/-- The one-step effect of a successful `insert_value` on the stored rows of
the topic: the topics table and the invariants are preserved, and the topic's
rows become the last `max_values` of (old rows ++ the new row). -/
theorem applyInsert_found (s : DbState) (topic v : String) (t : TopicRow) (N : Nat)
    (hfind : findTopic s topic = some t) (hmax : t.max_values = (N : Int))
    (hts : ∀ r ∈ s.topic_values, r.timestamp < s.clock)
    (hpw : (valuesFor s t.id).Pairwise (fun a b => a.timestamp < b.timestamp)) :
    (applyInsert s topic v).topics = s.topics ∧
    (applyInsert s topic v).clock = s.clock + 1 ∧
    valuesFor (applyInsert s topic v) t.id =
      lastN N (valuesFor s t.id ++ [newValueRow s t.id v]) ∧
    (∀ r ∈ (applyInsert s topic v).topic_values, r.timestamp < (applyInsert s topic v).clock) ∧
    (valuesFor (applyInsert s topic v) t.id).Pairwise
      (fun a b => a.timestamp < b.timestamp) := by
  have happ : applyInsert s topic v = { s with
      topic_values :=
        (s.topic_values ++ [newValueRow s t.id v]).filter
          (fun r => (!(decide (r.topic_id = t.id))) ||
            keptByTrim ((s.topic_values ++ [newValueRow s t.id v]).filter
              (fun r => decide (r.topic_id = t.id))) t.max_values r),
      nextValueId := s.nextValueId + 1,
      clock := s.clock + 1 } := by
    rw [applyInsert.eq_def, insert_value_found s topic v t hfind]
  have htRows : (s.topic_values ++ [newValueRow s t.id v]).filter
      (fun r => decide (r.topic_id = t.id)) = valuesFor s t.id ++ [newValueRow s t.id v] := by
    rw [List.filter_append]
    congr 1
    rw [List.filter_cons]
    rw [if_pos (by simp [newValueRow])]
    rfl
  have hpwAll : (valuesFor s t.id ++ [newValueRow s t.id v]).Pairwise
      (fun a b => a.timestamp < b.timestamp) := by
    rw [List.pairwise_append]
    refine ⟨hpw, List.pairwise_singleton _ _, ?_⟩
    intro a ha b hb
    rw [List.mem_singleton] at hb
    subst hb
    exact hts a (List.mem_of_mem_filter ha)
  have hvals : valuesFor (applyInsert s topic v) t.id =
      lastN N (valuesFor s t.id ++ [newValueRow s t.id v]) := by
    rw [happ]
    unfold valuesFor
    rw [htRows]
    rw [List.filter_filter]
    have hpoint : ∀ a ∈ s.topic_values ++ [newValueRow s t.id v],
        (decide (a.topic_id = t.id) &&
          ((!(decide (a.topic_id = t.id))) ||
            keptByTrim (valuesFor s t.id ++ [newValueRow s t.id v]) t.max_values a)) =
        (decide (newerCount (valuesFor s t.id ++ [newValueRow s t.id v]) a < N) &&
          decide (a.topic_id = t.id)) := by
      intro a _
      rw [hmax]
      unfold keptByTrim
      have h1 : decide ((N : Int) < 0) = false := by simp
      rw [h1, Bool.false_or]
      have h2 : ((N : Int)).toNat = N := Int.toNat_natCast N
      rw [h2]
      cases h : decide (a.topic_id = t.id) <;> simp
    rw [List.filter_congr hpoint]
    rw [← List.filter_filter]
    have hback : (s.topic_values ++ [newValueRow s t.id v]).filter
        (fun r => decide (r.topic_id = t.id)) = valuesFor s t.id ++ [newValueRow s t.id v] :=
      htRows
    rw [hback]
    exact filter_newerCount_eq_lastN N _ hpwAll
  refine ⟨by rw [happ], by rw [happ], hvals, ?_, ?_⟩
  · intro r hr
    rw [happ] at hr ⊢
    have hr2 : r ∈ s.topic_values ++ [newValueRow s t.id v] :=
      List.mem_of_mem_filter hr
    rcases List.mem_append.mp hr2 with hold | hnew
    · have := hts r hold
      show r.timestamp < s.clock + 1
      omega
    · rw [List.mem_singleton] at hnew
      subst hnew
      exact Nat.lt_succ_self _
  · rw [hvals]
    exact hpwAll.sublist (List.drop_sublist _ _)

/-- After a sequence of inserts, the stored values for the topic (in ascending
timestamp order) are the last `N` of (previously stored values ++ inserted
payloads). -/
theorem insertMany_map_value (topic : String) (t : TopicRow) (N : Nat) :
    ∀ (vs : List String) (s : DbState),
      findTopic s topic = some t → t.max_values = (N : Int) →
      (∀ r ∈ s.topic_values, r.timestamp < s.clock) →
      (valuesFor s t.id).Pairwise (fun a b => a.timestamp < b.timestamp) →
      (valuesFor s t.id).length ≤ N →
      (valuesFor (insertMany s topic vs) t.id).map (fun r => r.value) =
        lastN N ((valuesFor s t.id).map (fun r => r.value) ++ vs) := by
  intro vs
  induction vs with
  | nil =>
    intro s hfind hmax hts hpw hlen
    show (valuesFor s t.id).map (fun r => r.value) =
      lastN N ((valuesFor s t.id).map (fun r => r.value) ++ [])
    rw [List.append_nil]
    simp only [lastN, List.length_map]
    rw [Nat.sub_eq_zero_of_le hlen, List.drop_zero]
  | cons v vs ih =>
    intro s hfind hmax hts hpw hlen
    obtain ⟨htop, hclock, hvals, hts2, hpw2⟩ := applyInsert_found s topic v t N hfind hmax hts hpw
    have hfind2 : findTopic (applyInsert s topic v) topic = some t := by
      unfold findTopic
      rw [htop]
      exact hfind
    have hlen2 : (valuesFor (applyInsert s topic v) t.id).length ≤ N := by
      rw [hvals, length_lastN]
      omega
    have hstep : insertMany s topic (v :: vs) = insertMany (applyInsert s topic v) topic vs := rfl
    rw [hstep, ih (applyInsert s topic v) hfind2 hmax hts2 hpw2 hlen2]
    rw [hvals, map_lastN, lastN_append_lastN, List.map_append]
    have hone : ([newValueRow s t.id v].map (fun r => r.value)) = [v] := rfl
    rw [hone, List.append_assoc, List.singleton_append]

/-- Claim C1: for a registered topic with retention cap `max_values = N ≥ 1`
and no stored rows yet, after any sequence of `k` `insert_value` calls for the
topic the stored rows for it number `min N k`, and they are exactly the `N`
most recent payloads in insertion (= timestamp) order — the oldest rows are
the evicted ones. -/
theorem insert_value_retention (s : DbState) (topic : String) (t : TopicRow) (N : Nat)
    (vs : List String) (hN : 1 ≤ N)
    (hfind : findTopic s topic = some t) (hmax : t.max_values = (N : Int))
    (hts : ∀ r ∈ s.topic_values, r.timestamp < s.clock)
    (hempty : valuesFor s t.id = []) :
    (valuesFor (insertMany s topic vs) t.id).map (fun r => r.value) =
      vs.drop (vs.length - N) ∧
    (valuesFor (insertMany s topic vs) t.id).length = min N vs.length := by
  have h := insertMany_map_value topic t N vs s hfind hmax hts
    (by rw [hempty]; exact List.Pairwise.nil) (by rw [hempty]; exact Nat.zero_le N)
  rw [hempty] at h
  simp only [List.map_nil, List.nil_append] at h
  constructor
  · rw [h]; rfl
  · have hl := congrArg List.length h
    rw [List.length_map] at hl
    rw [hl, length_lastN]

/-- Witness for C1 (the scenario of spec §8): topic `sensor/temp` registered
with `max_values = 3`; inserting `"10", "11", "12", "13"` leaves exactly the 3
most recent values `"11", "12", "13"`, the oldest `"10"` evicted. -/
theorem insert_value_retention_witness :
    (valuesFor (insertMany witState "sensor/temp" ["10", "11", "12", "13"]) witTopicRow.id).map
        (fun r => r.value) =
      ["10", "11", "12", "13"].drop (["10", "11", "12", "13"].length - 3) ∧
    (valuesFor (insertMany witState "sensor/temp" ["10", "11", "12", "13"]) witTopicRow.id).length =
      min 3 (["10", "11", "12", "13"].length) :=
  insert_value_retention witState "sensor/temp" witTopicRow 3 ["10", "11", "12", "13"]
    (by decide) (by decide) (by decide) (by decide) (by decide)

end MonitorFlux
